import Mathlib

/-!
Verification of the fretboard-trainer repository.

Part 1: shallow embedding of `src/utils/noteLogic.ts`.
Part 2: shallow embedding of the game-session controller in `src/App.tsx`
(state record, mode-switch functions, and the fret-click handler), with
`Math.random` choices passed in as explicit oracle indices and `setTimeout`
callbacks reified as scheduled actions returned next to the new state.
-/

namespace FretboardTrainer

/-- Embeds `NOTES` from noteLogic.ts: the 12 pitch-class names (the one
array literal is written here as a concatenation of its two halves). -/
def NOTES : List String :=
  ["C", "C#", "D", "D#", "E", "F"] ++ ["F#", "G", "G#", "A", "A#", "B"]

/-- Embeds `OPEN_STRING_NOTES` from noteLogic.ts: note index of each open string. -/
def OPEN_STRING_NOTES : List Nat := [4, 11, 7, 2, 9, 4]

/-- Embeds `getNoteName` from noteLogic.ts. A JavaScript out-of-bounds index read
yields `undefined`, which propagates to an `undefined` result; that is
rendered here as `none`. -/
def getNoteName (stringIndex fret : Nat) : Option String :=
  match OPEN_STRING_NOTES.get? stringIndex with
  | none => none
  | some openNote => NOTES.get? ((openNote + fret) % 12)

/-- The spec's own open-string offset table (E, B, G, D, A, E), written from
the spec's words to compare against the source's `OPEN_STRING_NOTES`. -/
def SPEC_OPEN_OFFSETS : List Nat := [4, 11, 7, 2, 9, 4]

/-- Embeds `isMarkedFret` from noteLogic.ts. -/
def isMarkedFret (fret : Nat) : Bool :=
  [3, 5, 7, 9, 12, 15, 17, 19, 21, 24].contains fret

theorem NOTES_get?_lt_length (n : Nat) (h : n < 12) :
    ∃ nm, NOTES.get? n = some nm ∧ nm ∈ NOTES := by
  interval_cases n <;> simp [NOTES]

/-- C1: for every string index s ∈ [0,5] and fret f ≥ 0, `getNoteName s f`
is `NOTES[(open(s) + f) % 12]` with the open offsets 4, 11, 7, 2, 9, 4; the
open strings resolve to E, B, G, D, A, E, and `getNoteName 0 3 = "G"`,
`getNoteName 5 5 = "A"`. -/
theorem getNoteName_matches_spec_formula (s f : Nat) (hs : s ≤ 5) :
    getNoteName s f = NOTES.get? ((SPEC_OPEN_OFFSETS.getD s 0 + f) % 12)
    ∧ getNoteName 0 0 = some "E" ∧ getNoteName 1 0 = some "B"
    ∧ getNoteName 2 0 = some "G" ∧ getNoteName 3 0 = some "D"
    ∧ getNoteName 4 0 = some "A" ∧ getNoteName 5 0 = some "E"
    ∧ getNoteName 0 3 = some "G" ∧ getNoteName 5 5 = some "A" := by
  refine ⟨?_, by decide, by decide, by decide, by decide, by decide,
    by decide, by decide, by decide⟩
  interval_cases s <;> rfl

theorem getNoteName_matches_spec_formula_witness :
    getNoteName 3 7 = NOTES.get? ((SPEC_OPEN_OFFSETS.getD 3 0 + 7) % 12) :=
  (getNoteName_matches_spec_formula 3 7 (by decide)).1

/-- C2: octave periodicity — for every string index s ∈ [0,5] and fret
f ≥ 0, `getNoteName s (f + 12) = getNoteName s f`. -/
theorem getNoteName_octave_periodic (s f : Nat) (hs : s ≤ 5) :
    getNoteName s (f + 12) = getNoteName s f := by
  interval_cases s <;>
    · show NOTES.get? _ = NOTES.get? _
      congr 1
      omega

theorem getNoteName_octave_periodic_witness :
    getNoteName 2 17 = getNoteName 2 5 :=
  getNoteName_octave_periodic 2 5 (by decide)

/-- C9: under the precondition s ∈ [0,5] and f ≥ 0, `getNoteName` is total
with no error case: the open-string lookup is in bounds and the result is
`some` of one of the 12 pitch-class names (determinism and absence of side
effects hold because it is embedded as a pure function). -/
theorem getNoteName_total_in_NOTES (s f : Nat) (hs : s ≤ 5) :
    (OPEN_STRING_NOTES.get? s).isSome
    ∧ ∃ nm, getNoteName s f = some nm ∧ nm ∈ NOTES := by
  constructor
  · interval_cases s <;> rfl
  · have hopen : ∃ o, OPEN_STRING_NOTES.get? s = some o := by
      interval_cases s <;> exact ⟨_, rfl⟩
    obtain ⟨o, ho⟩ := hopen
    obtain ⟨nm, hnm, hmem⟩ := NOTES_get?_lt_length ((o + f) % 12)
      (Nat.mod_lt _ (by norm_num))
    refine ⟨nm, ?_, hmem⟩
    unfold getNoteName
    rw [ho]
    exact hnm

theorem getNoteName_total_in_NOTES_witness :
    (OPEN_STRING_NOTES.get? 4).isSome
    ∧ ∃ nm, getNoteName 4 9 = some nm ∧ nm ∈ NOTES :=
  getNoteName_total_in_NOTES 4 9 (by decide)

/-! ## Game session controller (src/App.tsx) -/

/-- Embeds `GameMode` from App.tsx. -/
inductive GameMode
  | explore
  | survival
  | vertical
  | stringMaster
  | chord
  | weakNotes
deriving DecidableEq, Repr

/-- Embeds `FretRange` from App.tsx. -/
inductive FretRange
  | low
  | mid
  | high
  | full
deriving DecidableEq, Repr

/-- Embeds `NoteStats` from App.tsx. -/
structure NoteStats where
  correct : Nat
  wrong : Nat
deriving DecidableEq, Repr

/-- One entry of `FRET_RANGES` from App.tsx. -/
structure FretRangeSpec where
  min : Nat
  max : Nat
deriving DecidableEq, Repr

/-- Embeds `FRET_RANGES` from App.tsx. -/
def FRET_RANGES : FretRange → FretRangeSpec
  | FretRange.low => ⟨0, 4⟩
  | FretRange.mid => ⟨5, 9⟩
  | FretRange.high => ⟨10, 12⟩
  | FretRange.full => ⟨0, 12⟩

/-- Embeds `MASTERY_THRESHOLD` from App.tsx. -/
def MASTERY_THRESHOLD : Nat := 10

/-- Embeds `CHORDS` from App.tsx: root → chord type → notes. -/
def CHORDS : List (String × List (String × List String)) :=
  [("C", [("major", ["C", "E", "G"]), ("minor", ["C", "D#", "G"])]),
   ("D", [("major", ["D", "F#", "A"]), ("minor", ["D", "F", "A"])]),
   ("E", [("major", ["E", "G#", "B"]), ("minor", ["E", "G", "B"])]),
   ("F", [("major", ["F", "A", "C"]), ("minor", ["F", "G#", "C"])]),
   ("G", [("major", ["G", "B", "D"]), ("minor", ["G", "A#", "D"])]),
   ("A", [("major", ["A", "C#", "E"]), ("minor", ["A", "C", "E"])]),
   ("B", [("major", ["B", "D#", "F#"]), ("minor", ["B", "D", "F#"])])]

/-- Embeds `CHORD_ROOTS` from App.tsx (`Object.keys(CHORDS)`). -/
def CHORD_ROOTS : List String := CHORDS.map (fun p => p.1)

/-- Embeds `CHORD_TYPES` from App.tsx. -/
def CHORD_TYPES : List String := ["major", "minor"]

/-- Looks up `CHORDS[root][type]` (an absent key yields `[]`, which cannot occur for
the indices `pickNewChord` produces). -/
def chordNotesFor (root ctype : String) : List String :=
  (((CHORDS.lookup root).getD []).lookup ctype).getD []

/-- The `currentChord` record `{ root, type, notes }` from App.tsx. -/
structure Chord where
  root : String
  ctype : String
  notes : List String
deriving DecidableEq, Repr

/-- The React `useState` cells of `App` gathered into one record.
`noteStats` is the JS object `Record<string, NoteStats>` as an association
list in key-insertion order; the found sets are JS `Set`s as `Finset`s. -/
structure AppState where
  mode : GameMode
  targetNote : Option String
  message : String
  score : Nat
  timeLeft : Int
  gameActive : Bool
  lastClicked : Option (Nat × Nat)
  foundNotes : Finset String
  activeStrings : Option (Finset Nat)
  highScore : Nat
  unlockedStrings : Nat
  currentStringScore : Nat
  noteStats : List (String × NoteStats)
  fretRange : FretRange
  currentChord : Option Chord
  foundChordNotes : Finset String
deriving DecidableEq

/-- A `setTimeout` callback scheduled by the click handler, reified as data
(the closure's captured `mode` and pool, and the delay in milliseconds). -/
inductive Sched
  | schedPickNewChord (delayMs : Nat)
  | schedPickNewTarget (closureMode : GameMode) (pool : List String) (delayMs : Nat)
deriving DecidableEq, Repr

/-- The pitch name the click handler computes: `getNoteName(stringIndex, fret)`,
with JavaScript's `undefined` for an invalid string index rendered as a
sentinel string outside `NOTES`. -/
def clickNoteName (stringIndex fret : Nat) : String :=
  (getNoteName stringIndex fret).getD "undefined"

/-- Key update on the stats object: `{ ...prev, [note]: updated }` keeps an
existing key in place and appends a new key at the end. -/
def setEntry (l : List (String × NoteStats)) (k : String) (v : NoteStats) :
    List (String × NoteStats) :=
  if l.any (fun p => p.1 = k) then
    l.map (fun p => if p.1 = k then (k, v) else p)
  else
    l ++ [(k, v)]

/-- Embeds `updateNoteStats` from App.tsx (the `localStorage` write is out of scope). -/
def updateNoteStats (note : String) (isCorrect : Bool)
    (prev : List (String × NoteStats)) : List (String × NoteStats) :=
  let current := (prev.lookup note).getD ⟨0, 0⟩
  let updated : NoteStats :=
    ⟨current.correct + (if isCorrect then 1 else 0),
     current.wrong + (if isCorrect then 0 else 1)⟩
  setEntry prev note updated

/-- The recorded counters for a pitch (`{ correct: 0, wrong: 0 }` when absent). -/
def statsOf (l : List (String × NoteStats)) (note : String) : NoteStats :=
  (l.lookup note).getD ⟨0, 0⟩

/-- The weak-note filter of `startWeakNotes` (and its inline recalculation in
the click handler): entries with at least 5 attempts whose error rate
`wrong / total` exceeds `0.3`, written in exact arithmetic as
`3 * total < 10 * wrong`. -/
def isWeak (stats : NoteStats) : Bool :=
  let total := stats.correct + stats.wrong
  if total < 5 then false
  else decide (3 * total < 10 * stats.wrong)

/-- Embeds `Object.entries(noteStats).filter(...).map(([note]) => note)` from App.tsx. -/
def computeWeakNotes (l : List (String × NoteStats)) : List String :=
  (l.filter (fun p => isWeak p.2)).map (fun p => p.1)

/-- Embeds `pickNewTarget` from App.tsx. `closureMode` is the value of `mode`
captured by the calling closure (the pre-switch mode when called from a
`startX` function), and `k` stands in for `Math.random()`: the chosen index
is `k % pool.length`, an arbitrary in-range position. An empty pool yields
the JS `undefined` target, rendered as a sentinel outside `NOTES`. -/
def pickNewTarget (closureMode : GameMode) (pool : List String) (k : Nat)
    (st : AppState) : AppState :=
  let randomNote := pool.getD (k % pool.length) "undefined"
  let st := { st with targetNote := some randomNote }
  let st :=
    if closureMode = GameMode.vertical then
      { st with message := s!"Find ALL \x22{randomNote}\x22 notes! (0 found)",
                foundNotes := ∅ }
    else
      { st with message := s!"Find: {randomNote}" }
  { st with lastClicked := none }

/-- Embeds `pickNewChord` from App.tsx; `kr`, `kt` stand in for the two
`Math.random()` draws. -/
def pickNewChord (kr kt : Nat) (st : AppState) : AppState :=
  let root := CHORD_ROOTS.getD (kr % CHORD_ROOTS.length) "undefined"
  let ctype := CHORD_TYPES.getD (kt % CHORD_TYPES.length) "undefined"
  let notes := chordNotesFor root ctype
  let joined := String.intercalate ", " notes
  let n := notes.length
  { st with currentChord := some ⟨root, ctype, notes⟩,
            foundChordNotes := ∅,
            foundNotes := ∅,
            message := s!"Find {root} {ctype}: {joined} (0/{n})",
            lastClicked := none }

/-- Embeds `startSurvival` from App.tsx. -/
def startSurvival (k : Nat) (st : AppState) : AppState :=
  pickNewTarget st.mode NOTES k
    { st with mode := GameMode.survival, activeStrings := none,
              score := 0, timeLeft := 30, gameActive := true }

/-- Embeds `startVertical` from App.tsx. -/
def startVertical (k : Nat) (st : AppState) : AppState :=
  pickNewTarget st.mode NOTES k
    { st with mode := GameMode.vertical, activeStrings := none,
              score := 0, timeLeft := 60, gameActive := true,
              foundNotes := ∅ }

/-- Embeds `startStringMaster` from App.tsx (the final `setMessage` overrides the
one set inside `pickNewTarget`). -/
def startStringMaster (k : Nat) (st : AppState) : AppState :=
  let u := st.unlockedStrings
  let st' := pickNewTarget st.mode NOTES k
    { st with mode := GameMode.stringMaster,
              activeStrings := some (Finset.range st.unlockedStrings),
              score := 0, currentStringScore := 0, gameActive := true }
  { st' with message :=
      s!"String Master: {u}/6 unlocked. Get {MASTERY_THRESHOLD} correct to unlock next!" }

/-- Embeds `startWeakNotes` from App.tsx: with an empty weak pool the start is
refused (mode falls back to explore, game inactive); otherwise the weak pool
becomes the target pool. -/
def startWeakNotes (k : Nat) (st : AppState) : AppState :=
  let weak := computeWeakNotes st.noteStats
  if weak.isEmpty then
    { st with
      message := "Great job! No weak notes detected (need >30% error rate & 5+ attempts). Keep practicing!",
      mode := GameMode.explore, gameActive := false }
  else
    let joined := String.intercalate ", " weak
    let st' := pickNewTarget st.mode weak k
      { st with mode := GameMode.weakNotes, activeStrings := none,
                score := 0, gameActive := true }
    { st' with message := s!"Weak Notes Mode: Focusing on {joined}" }

/-- Embeds `startChord` from App.tsx. -/
def startChord (kr kt : Nat) (st : AppState) : AppState :=
  pickNewChord kr kt
    { st with mode := GameMode.chord, activeStrings := none,
              score := 0, timeLeft := 90, gameActive := true,
              foundNotes := ∅, foundChordNotes := ∅ }

/-- The explore-button click from App.tsx (`setMode('explore');
setGameActive(false); setMessage('Explore Mode'); setActiveStrings(undefined)`). -/
def enterExplore (st : AppState) : AppState :=
  { st with mode := GameMode.explore, gameActive := false,
            message := "Explore Mode", activeStrings := none }

/-- The chord-mode block of `handleFretClick` (entered when
`mode === 'chord' && currentChord`). -/
def chordClick (st : AppState) (chord : Chord) (noteName noteId : String) :
    AppState × Option Sched :=
  let root := chord.root
  let ctype := chord.ctype
  if noteName ∈ chord.notes then
    if noteName ∈ st.foundChordNotes then
      let still := String.intercalate ", "
        (chord.notes.filter (fun n => n ∉ st.foundChordNotes))
      ({ st with message := s!"Already found {noteName}! Find: {still}" }, none)
    else
      let newFoundNotes := insert noteName st.foundChordNotes
      let st := { st with foundChordNotes := newFoundNotes,
                          foundNotes := insert noteId st.foundNotes,
                          score := st.score + 1 }
      if newFoundNotes.card = chord.notes.length then
        ({ st with
           message := s!"Excellent! Completed {root} {ctype}! Next chord...",
           timeLeft := min (st.timeLeft + 5) 120 },
         some (Sched.schedPickNewChord 1000))
      else
        let still := String.intercalate ", "
          (chord.notes.filter (fun n => n ∉ newFoundNotes))
        let got := newFoundNotes.card
        let total := chord.notes.length
        ({ st with message :=
            s!"Found {noteName}! Still need: {still} ({got}/{total})" }, none)
  else
    let still := String.intercalate ", "
      (chord.notes.filter (fun n => n ∉ st.foundChordNotes))
    ({ st with
       message := s!"{noteName} is not in {root} {ctype}. Find: {still}",
       timeLeft := max (st.timeLeft - 2) 0 }, none)

/-- The correct-answer branch of the non-chord block of `handleFretClick`
(entered after `noteName === targetNote`; `updateNoteStats` has already been
applied by the caller). -/
def correctClick (st : AppState) (target noteName noteId : String) :
    AppState × Option Sched :=
  if st.mode = GameMode.vertical then
    if noteId ∈ st.foundNotes then
      ({ st with message :=
          s!"You already found that one! Find other \x22{target}\x22s" }, none)
    else
      let newFound := insert noteId st.foundNotes
      let found := newFound.card
      let st := { st with foundNotes := newFound, score := st.score + 1,
                          message := s!"Correct! Found {found} \x22{target}\x22s" }
      if 2 ≤ newFound.card then
        ({ st with message := s!"Great job! Found multiple {target}s! Next note..." },
         some (Sched.schedPickNewTarget st.mode NOTES 1000))
      else (st, none)
  else if st.mode = GameMode.stringMaster then
    let newStringScore := st.currentStringScore + 1
    let st := { st with score := st.score + 1, currentStringScore := newStringScore }
    if MASTERY_THRESHOLD ≤ newStringScore ∧ st.unlockedStrings < 6 then
      let newUnlocked := st.unlockedStrings + 1
      ({ st with
         unlockedStrings := newUnlocked,
         currentStringScore := 0,
         activeStrings := some (Finset.range newUnlocked),
         message := s!"STRING UNLOCKED! You now have {newUnlocked} strings!" },
       some (Sched.schedPickNewTarget st.mode NOTES 2000))
    else
      ({ st with message :=
          s!"Correct! {noteName} found. ({newStringScore}/{MASTERY_THRESHOLD} for next string)" },
       some (Sched.schedPickNewTarget st.mode NOTES 500))
  else
    let st := { st with message := s!"Correct! It was {noteName}",
                        score := st.score + 1 }
    let st :=
      if st.mode = GameMode.survival then
        { st with timeLeft := min (st.timeLeft + 2) 60 }
      else st
    if st.mode = GameMode.weakNotes then
      let weak := computeWeakNotes st.noteStats
      if weak.isEmpty then
        ({ st with message := "No more weak notes! Switching to random." },
         some (Sched.schedPickNewTarget st.mode NOTES 500))
      else
        (st, some (Sched.schedPickNewTarget st.mode weak 500))
    else
      (st, some (Sched.schedPickNewTarget st.mode NOTES 500))

/-- The non-chord tail of `handleFretClick` (reached when the chord guard
`mode === 'chord' && currentChord` fails: a `return` when there is no target,
then the correct/wrong comparison against `targetNote`). -/
def nonChordClick (st : AppState) (noteName noteId : String) :
    AppState × Option Sched :=
  match st.targetNote with
  | none => (st, none)
  | some target =>
    if noteName = target then
      correctClick
        { st with noteStats := updateNoteStats target true st.noteStats }
        target noteName noteId
    else
      let st := { st with noteStats := updateNoteStats target false st.noteStats,
                          message := s!"Wrong! That was {noteName}. Find {target}" }
      if st.mode = GameMode.survival then
        ({ st with timeLeft := max (st.timeLeft - 3) 0 }, none)
      else
        (st, none)

/-- Embeds `handleFretClick` from App.tsx: the synchronous state transition of one
fret click (the `playNote` call is out of scope; `setTimeout` callbacks are
returned as a `Sched` value instead of being run). -/
def handleFretClick (st : AppState) (stringIndex fret : Nat) :
    AppState × Option Sched :=
  let st := { st with lastClicked := some (stringIndex, fret) }
  let noteName := clickNoteName stringIndex fret
  let range := FRET_RANGES st.fretRange
  let lo := range.min
  let hi := range.max
  if fret < lo ∨ hi < fret then
    ({ st with message := s!"Stay within frets {lo}-{hi}!" }, none)
  else if st.mode = GameMode.explore then
    let sNum := stringIndex + 1
    ({ st with message := s!"String {sNum}, Fret {fret}: {noteName}" }, none)
  else if st.gameActive = false then
    (st, none)
  else
    let noteId := s!"{stringIndex}-{fret}"
    if hc : st.mode = GameMode.chord ∧ st.currentChord.isSome then
      chordClick st (st.currentChord.get hc.2) noteName noteId
    else
      nonChordClick st noteName noteId

/-- The click is inside the active fret range. -/
def inRange (r : FretRange) (fret : Nat) : Prop :=
  (FRET_RANGES r).min ≤ fret ∧ fret ≤ (FRET_RANGES r).max

instance (r : FretRange) (fret : Nat) : Decidable (inRange r fret) := by
  unfold inRange
  infer_instance

/-- A concrete idle state used by witnesses and counterexamples. -/
def baseState : AppState :=
  { mode := GameMode.explore, targetNote := none, message := "", score := 0,
    timeLeft := 0, gameActive := false, lastClicked := none, foundNotes := ∅,
    activeStrings := none, highScore := 0, unlockedStrings := 1,
    currentStringScore := 0, noteStats := [], fretRange := FretRange.full,
    currentChord := none, foundChordNotes := ∅ }

theorem lookup_cons_ne (k : String) (a : String × NoteStats)
    (t : List (String × NoteStats)) (h : a.1 ≠ k) :
    List.lookup k (a :: t) = List.lookup k t := by
  obtain ⟨a1, a2⟩ := a
  simp only at h
  have hb : (k == a1) = false := by simp [Ne.symm h]
  simp [List.lookup, hb]

theorem lookup_cons_self (k : String) (v : NoteStats)
    (t : List (String × NoteStats)) :
    List.lookup k ((k, v) :: t) = some v := by
  simp [List.lookup]

theorem lookup_map_replace (l : List (String × NoteStats)) (k : String)
    (v : NoteStats) (h : l.any (fun p => p.1 = k)) :
    (l.map (fun p => if p.1 = k then (k, v) else p)).lookup k = some v := by
  induction l with
  | nil => simp at h
  | cons a t ih =>
    simp only [List.any_cons, Bool.or_eq_true, decide_eq_true_eq] at h
    by_cases hk : a.1 = k
    · simp only [List.map_cons, if_pos hk]
      exact lookup_cons_self k v _
    · have ht : t.any (fun p => p.1 = k) := by
        rcases h with h | h
        · exact absurd h hk
        · exact h
      simp only [List.map_cons, if_neg hk]
      rw [lookup_cons_ne k a _ hk]
      exact ih ht

theorem lookup_append_single (l : List (String × NoteStats)) (k : String)
    (v : NoteStats) (h : ¬ l.any (fun p => p.1 = k)) :
    (l ++ [(k, v)]).lookup k = some v := by
  induction l with
  | nil => simp [List.lookup]
  | cons a t ih =>
    simp only [List.any_cons, Bool.or_eq_true, decide_eq_true_eq, not_or] at h
    rw [List.cons_append, lookup_cons_ne k a _ h.1]
    exact ih (by simpa using h.2)

theorem lookup_setEntry_self (l : List (String × NoteStats)) (k : String)
    (v : NoteStats) : (setEntry l k v).lookup k = some v := by
  unfold setEntry
  by_cases h : l.any (fun p => p.1 = k)
  · rw [if_pos h]
    exact lookup_map_replace l k v h
  · rw [if_neg h]
    exact lookup_append_single l k v h

theorem statsOf_updateNoteStats_self (l : List (String × NoteStats))
    (n : String) (b : Bool) :
    statsOf (updateNoteStats n b l) n =
      ⟨(statsOf l n).correct + (if b then 1 else 0),
       (statsOf l n).wrong + (if b then 0 else 1)⟩ := by
  simp [statsOf, updateNoteStats, lookup_setEntry_self]

theorem handleFretClick_out_of_range (st : AppState) (s f : Nat)
    (h : ¬ inRange st.fretRange f) :
    handleFretClick st s f =
      (let lo := (FRET_RANGES st.fretRange).min
       let hi := (FRET_RANGES st.fretRange).max
       ({ st with lastClicked := some (s, f),
                  message := s!"Stay within frets {lo}-{hi}!" }, none)) := by
  unfold handleFretClick
  dsimp only
  rw [if_pos]
  unfold inRange at h
  omega

theorem handleFretClick_eq_chordClick (st : AppState) (s f : Nat) (ch : Chord)
    (hr : inRange st.fretRange f) (hm : st.mode = GameMode.chord)
    (ha : st.gameActive = true) (hc : st.currentChord = some ch) :
    handleFretClick st s f =
      chordClick { st with lastClicked := some (s, f) } ch
        (clickNoteName s f) s!"{s}-{f}" := by
  obtain ⟨h1, h2⟩ := hr
  unfold handleFretClick
  dsimp only
  rw [if_neg (by omega), if_neg (by simp [hm]), if_neg (by simp [ha]),
    dif_pos (by simp [hm, hc])]
  simp [hc]

theorem handleFretClick_eq_nonChordClick (st : AppState) (s f : Nat)
    (hr : inRange st.fretRange f) (hm : st.mode ≠ GameMode.explore)
    (ha : st.gameActive = true)
    (hnc : ¬ (st.mode = GameMode.chord ∧ st.currentChord.isSome)) :
    handleFretClick st s f =
      nonChordClick { st with lastClicked := some (s, f) }
        (clickNoteName s f) s!"{s}-{f}" := by
  obtain ⟨h1, h2⟩ := hr
  unfold handleFretClick
  dsimp only
  rw [if_neg (by omega), if_neg (by simp [hm]), if_neg (by simp [ha]),
    dif_neg (by simpa using hnc)]

/-- C10: a fret click outside the selected fret range changes only the
feedback message and the last-clicked marker: score, target, timer, found
sets, per-pitch statistics, unlock progress, chord, mode, activity flag,
active strings, high score and fret range are unchanged, and nothing is
scheduled. -/
theorem outOfRange_click_frame (st : AppState) (s f : Nat)
    (h : ¬ inRange st.fretRange f) :
    (handleFretClick st s f).1.score = st.score
    ∧ (handleFretClick st s f).1.targetNote = st.targetNote
    ∧ (handleFretClick st s f).1.timeLeft = st.timeLeft
    ∧ (handleFretClick st s f).1.foundNotes = st.foundNotes
    ∧ (handleFretClick st s f).1.foundChordNotes = st.foundChordNotes
    ∧ (handleFretClick st s f).1.noteStats = st.noteStats
    ∧ (handleFretClick st s f).1.unlockedStrings = st.unlockedStrings
    ∧ (handleFretClick st s f).1.currentStringScore = st.currentStringScore
    ∧ (handleFretClick st s f).1.currentChord = st.currentChord
    ∧ (handleFretClick st s f).1.gameActive = st.gameActive
    ∧ (handleFretClick st s f).1.mode = st.mode
    ∧ (handleFretClick st s f).1.activeStrings = st.activeStrings
    ∧ (handleFretClick st s f).1.highScore = st.highScore
    ∧ (handleFretClick st s f).1.fretRange = st.fretRange
    ∧ (handleFretClick st s f).1.lastClicked = some (s, f)
    ∧ (handleFretClick st s f).2 = none := by
  rw [handleFretClick_out_of_range st s f h]
  dsimp only
  exact ⟨rfl, rfl, rfl, rfl, rfl, rfl, rfl, rfl, rfl, rfl, rfl, rfl, rfl,
    rfl, rfl, rfl⟩

theorem outOfRange_click_frame_witness :
    (handleFretClick { baseState with fretRange := FretRange.low } 0 7).1.score
      = ({ baseState with fretRange := FretRange.low } : AppState).score :=
  (outOfRange_click_frame { baseState with fretRange := FretRange.low } 0 7
    (by decide)).1

theorem survival_correct_timeLeft (st : AppState) (s f : Nat) (t : String)
    (hm : st.mode = GameMode.survival) (ha : st.gameActive = true)
    (hr : inRange st.fretRange f) (ht : st.targetNote = some t)
    (hn : clickNoteName s f = t) :
    (handleFretClick st s f).1.timeLeft = min (st.timeLeft + 2) 60 := by
  rw [handleFretClick_eq_nonChordClick st s f hr (by simp [hm]) ha (by simp [hm])]
  unfold nonChordClick
  dsimp only
  rw [ht]
  dsimp only
  rw [if_pos hn]
  unfold correctClick
  simp [hm]

theorem survival_wrong_timeLeft (st : AppState) (s f : Nat) (t : String)
    (hm : st.mode = GameMode.survival) (ha : st.gameActive = true)
    (hr : inRange st.fretRange f) (ht : st.targetNote = some t)
    (hn : clickNoteName s f ≠ t) :
    (handleFretClick st s f).1.timeLeft = max (st.timeLeft - 3) 0 := by
  rw [handleFretClick_eq_nonChordClick st s f hr (by simp [hm]) ha (by simp [hm])]
  unfold nonChordClick
  dsimp only
  rw [ht]
  dsimp only
  rw [if_neg hn]
  simp [hm]

theorem chordClick_wrong_pitch (st : AppState) (ch : Chord)
    (noteName noteId : String) (h : noteName ∉ ch.notes) :
    (chordClick st ch noteName noteId).1.timeLeft = max (st.timeLeft - 2) 0
    ∧ (chordClick st ch noteName noteId).1.score = st.score
    ∧ (chordClick st ch noteName noteId).1.foundChordNotes = st.foundChordNotes
    ∧ (chordClick st ch noteName noteId).2 = none := by
  unfold chordClick
  simp [h]

theorem chordClick_already_found (st : AppState) (ch : Chord)
    (noteName noteId : String) (h1 : noteName ∈ ch.notes)
    (h2 : noteName ∈ st.foundChordNotes) :
    (chordClick st ch noteName noteId).1.timeLeft = st.timeLeft
    ∧ (chordClick st ch noteName noteId).1.score = st.score
    ∧ (chordClick st ch noteName noteId).1.foundChordNotes = st.foundChordNotes
    ∧ (chordClick st ch noteName noteId).1.foundNotes = st.foundNotes
    ∧ (chordClick st ch noteName noteId).1.noteStats = st.noteStats
    ∧ (chordClick st ch noteName noteId).2 = none := by
  unfold chordClick
  simp [h1, h2]

theorem chordClick_new_pitch (st : AppState) (ch : Chord)
    (noteName noteId : String) (h1 : noteName ∈ ch.notes)
    (h2 : noteName ∉ st.foundChordNotes) :
    (chordClick st ch noteName noteId).1.foundChordNotes
        = insert noteName st.foundChordNotes
    ∧ (chordClick st ch noteName noteId).1.score = st.score + 1
    ∧ (chordClick st ch noteName noteId).1.timeLeft
        = (if (insert noteName st.foundChordNotes).card = ch.notes.length
           then min (st.timeLeft + 5) 120 else st.timeLeft)
    ∧ (chordClick st ch noteName noteId).2
        = (if (insert noteName st.foundChordNotes).card = ch.notes.length
           then some (Sched.schedPickNewChord 1000) else none) := by
  unfold chordClick
  simp only [if_pos h1, if_neg h2]
  refine ⟨?_, ?_, ?_, ?_⟩ <;> · split <;> simp_all

/-- A concrete running survival session used by witnesses. -/
def survivalWitnessState : AppState :=
  { baseState with
    mode := GameMode.survival, gameActive := true,
    timeLeft := 59, targetNote := some "C" }

/-- A concrete running chord session (C major, C and E already found). -/
def chordWitnessState : AppState :=
  { baseState with
    mode := GameMode.chord, gameActive := true,
    timeLeft := 118, currentChord := some ⟨"C", "major", ["C", "E", "G"]⟩,
    foundChordNotes := {"C", "E"} }

/-- A concrete running chord session (C major, only C found). -/
def chordWitnessStateOne : AppState :=
  { baseState with
    mode := GameMode.chord, gameActive := true,
    timeLeft := 90, currentChord := some ⟨"C", "major", ["C", "E", "G"]⟩,
    foundChordNotes := {"C"} }

/-- C7: the survival timer is at most 60 after a correct-answer bonus and at
least 0 after a wrong-answer penalty, and the chord timer is at most 120
after a completion bonus and at least 0 after a wrong-pitch penalty. -/
theorem timer_bounds_after_bonus_penalty :
    (∀ (st : AppState) (s f : Nat) (t : String),
        st.mode = GameMode.survival → st.gameActive = true →
        inRange st.fretRange f → st.targetNote = some t →
        clickNoteName s f = t →
        (handleFretClick st s f).1.timeLeft ≤ 60)
    ∧ (∀ (st : AppState) (s f : Nat) (t : String),
        st.mode = GameMode.survival → st.gameActive = true →
        inRange st.fretRange f → st.targetNote = some t →
        clickNoteName s f ≠ t →
        0 ≤ (handleFretClick st s f).1.timeLeft)
    ∧ (∀ (st : AppState) (s f : Nat) (ch : Chord),
        st.mode = GameMode.chord → st.gameActive = true →
        inRange st.fretRange f → st.currentChord = some ch →
        clickNoteName s f ∈ ch.notes →
        clickNoteName s f ∉ st.foundChordNotes →
        (insert (clickNoteName s f) st.foundChordNotes).card = ch.notes.length →
        (handleFretClick st s f).1.timeLeft ≤ 120)
    ∧ (∀ (st : AppState) (s f : Nat) (ch : Chord),
        st.mode = GameMode.chord → st.gameActive = true →
        inRange st.fretRange f → st.currentChord = some ch →
        clickNoteName s f ∉ ch.notes →
        0 ≤ (handleFretClick st s f).1.timeLeft) := by
  refine ⟨?_, ?_, ?_, ?_⟩
  · intro st s f t hm ha hr ht hn
    rw [survival_correct_timeLeft st s f t hm ha hr ht hn]
    exact min_le_right _ _
  · intro st s f t hm ha hr ht hn
    rw [survival_wrong_timeLeft st s f t hm ha hr ht hn]
    exact le_max_right _ _
  · intro st s f ch hm ha hr hc h1 h2 hcomp
    rw [handleFretClick_eq_chordClick st s f ch hr hm ha hc,
      (chordClick_new_pitch { st with lastClicked := some (s, f) } ch
        (clickNoteName s f) s!"{s}-{f}" h1 h2).2.2.1,
      if_pos hcomp]
    exact min_le_right _ _
  · intro st s f ch hm ha hr hc h1
    rw [handleFretClick_eq_chordClick st s f ch hr hm ha hc,
      (chordClick_wrong_pitch { st with lastClicked := some (s, f) } ch
        (clickNoteName s f) s!"{s}-{f}" h1).1]
    exact le_max_right _ _

theorem timer_bounds_after_bonus_penalty_witness :
    (handleFretClick survivalWitnessState 0 8).1.timeLeft ≤ 60
    ∧ 0 ≤ (handleFretClick survivalWitnessState 0 0).1.timeLeft
    ∧ (handleFretClick chordWitnessState 0 3).1.timeLeft ≤ 120
    ∧ 0 ≤ (handleFretClick chordWitnessState 0 1).1.timeLeft :=
  ⟨timer_bounds_after_bonus_penalty.1 survivalWitnessState 0 8 "C"
      rfl rfl (by decide) rfl (by decide),
   timer_bounds_after_bonus_penalty.2.1 survivalWitnessState 0 0 "C"
      rfl rfl (by decide) rfl (by decide),
   timer_bounds_after_bonus_penalty.2.2.1 chordWitnessState 0 3
      ⟨"C", "major", ["C", "E", "G"]⟩ rfl rfl (by decide) rfl
      (by decide) (by decide) (by decide),
   timer_bounds_after_bonus_penalty.2.2.2 chordWitnessState 0 1
      ⟨"C", "major", ["C", "E", "G"]⟩ rfl rfl (by decide) rfl (by decide)⟩

/-- C5: in chord mode a newly found chord pitch completes the chord (timer
bonus plus scheduling of the next chord) exactly when the found-pitch set's
size reaches the chord's pitch-set size — otherwise nothing is scheduled and
the timer is unchanged — and a click on an already-found chord pitch leaves
timer, score, and both found sets unchanged and schedules nothing, so the
bonus fires at most once per chord. -/
theorem chord_completion_exact_and_single_bonus :
    (∀ (st : AppState) (s f : Nat) (ch : Chord),
        st.mode = GameMode.chord → st.gameActive = true →
        inRange st.fretRange f → st.currentChord = some ch →
        clickNoteName s f ∈ ch.notes →
        clickNoteName s f ∉ st.foundChordNotes →
        ((insert (clickNoteName s f) st.foundChordNotes).card = ch.notes.length →
          (handleFretClick st s f).2 = some (Sched.schedPickNewChord 1000)
          ∧ (handleFretClick st s f).1.timeLeft = min (st.timeLeft + 5) 120)
        ∧ ((insert (clickNoteName s f) st.foundChordNotes).card ≠ ch.notes.length →
          (handleFretClick st s f).2 = none
          ∧ (handleFretClick st s f).1.timeLeft = st.timeLeft))
    ∧ (∀ (st : AppState) (s f : Nat) (ch : Chord),
        st.mode = GameMode.chord → st.gameActive = true →
        inRange st.fretRange f → st.currentChord = some ch →
        clickNoteName s f ∈ ch.notes →
        clickNoteName s f ∈ st.foundChordNotes →
        (handleFretClick st s f).2 = none
        ∧ (handleFretClick st s f).1.timeLeft = st.timeLeft
        ∧ (handleFretClick st s f).1.score = st.score
        ∧ (handleFretClick st s f).1.foundChordNotes = st.foundChordNotes
        ∧ (handleFretClick st s f).1.foundNotes = st.foundNotes) := by
  constructor
  · intro st s f ch hm ha hr hc h1 h2
    rw [handleFretClick_eq_chordClick st s f ch hr hm ha hc]
    have hl := chordClick_new_pitch { st with lastClicked := some (s, f) } ch
      (clickNoteName s f) s!"{s}-{f}" h1 h2
    constructor
    · intro hcomp
      exact ⟨by rw [hl.2.2.2, if_pos hcomp], by rw [hl.2.2.1, if_pos hcomp]⟩
    · intro hcomp
      exact ⟨by rw [hl.2.2.2, if_neg hcomp], by rw [hl.2.2.1, if_neg hcomp]⟩
  · intro st s f ch hm ha hr hc h1 h2
    rw [handleFretClick_eq_chordClick st s f ch hr hm ha hc]
    have hl := chordClick_already_found { st with lastClicked := some (s, f) } ch
      (clickNoteName s f) s!"{s}-{f}" h1 h2
    exact ⟨hl.2.2.2.2.2, hl.1, hl.2.1, hl.2.2.1, hl.2.2.2.1⟩

theorem chord_completion_exact_and_single_bonus_witness :
    ((handleFretClick chordWitnessState 0 3).2
        = some (Sched.schedPickNewChord 1000)
      ∧ (handleFretClick chordWitnessState 0 3).1.timeLeft
        = min (chordWitnessState.timeLeft + 5) 120)
    ∧ ((handleFretClick chordWitnessStateOne 0 3).2 = none
      ∧ (handleFretClick chordWitnessStateOne 0 3).1.timeLeft
        = chordWitnessStateOne.timeLeft)
    ∧ (handleFretClick chordWitnessState 0 0).2 = none :=
  ⟨(chord_completion_exact_and_single_bonus.1 chordWitnessState 0 3
      ⟨"C", "major", ["C", "E", "G"]⟩ rfl rfl (by decide) rfl
      (by decide) (by decide)).1 (by decide),
   (chord_completion_exact_and_single_bonus.1 chordWitnessStateOne 0 3
      ⟨"C", "major", ["C", "E", "G"]⟩ rfl rfl (by decide) rfl
      (by decide) (by decide)).2 (by decide),
   (chord_completion_exact_and_single_bonus.2 chordWitnessState 0 0
      ⟨"C", "major", ["C", "E", "G"]⟩ rfl rfl (by decide) rfl
      (by decide) (by decide)).1⟩

theorem handleFretClick_explore (st : AppState) (s f : Nat)
    (hr : inRange st.fretRange f) (hm : st.mode = GameMode.explore) :
    (handleFretClick st s f).1.unlockedStrings = st.unlockedStrings
    ∧ (handleFretClick st s f).1.noteStats = st.noteStats := by
  obtain ⟨h1, h2⟩ := hr
  unfold handleFretClick
  dsimp only
  rw [if_neg (by omega), if_pos (by simp [hm])]
  exact ⟨rfl, rfl⟩

theorem handleFretClick_inactive (st : AppState) (s f : Nat)
    (hr : inRange st.fretRange f) (hm : st.mode ≠ GameMode.explore)
    (ha : st.gameActive = false) :
    handleFretClick st s f = ({ st with lastClicked := some (s, f) }, none) := by
  obtain ⟨h1, h2⟩ := hr
  unfold handleFretClick
  dsimp only
  rw [if_neg (by omega), if_neg (by simp [hm]), if_pos (by simp [ha])]

theorem chordClick_unlocked (st : AppState) (ch : Chord) (nn nid : String) :
    (chordClick st ch nn nid).1.unlockedStrings = st.unlockedStrings := by
  unfold chordClick
  dsimp only
  repeat' split
  all_goals rfl

theorem correctClick_unlocked (st : AppState) (t nn nid : String)
    (h : st.unlockedStrings ≤ 6) :
    (correctClick st t nn nid).1.unlockedStrings ≤ 6 := by
  unfold correctClick
  dsimp only
  repeat' split
  all_goals dsimp only
  all_goals omega

theorem nonChordClick_unlocked (st : AppState) (nn nid : String)
    (h : st.unlockedStrings ≤ 6) :
    (nonChordClick st nn nid).1.unlockedStrings ≤ 6 := by
  unfold nonChordClick
  repeat' split
  · exact h
  · exact correctClick_unlocked _ _ _ _ h
  · dsimp only
    repeat' split
    all_goals dsimp only
    all_goals omega

theorem unlocked_le_six_step (st : AppState) (s f : Nat)
    (h : st.unlockedStrings ≤ 6) :
    (handleFretClick st s f).1.unlockedStrings ≤ 6 := by
  by_cases hr : inRange st.fretRange f
  · by_cases hm : st.mode = GameMode.explore
    · rw [(handleFretClick_explore st s f hr hm).1]
      exact h
    · cases ha : st.gameActive with
      | false =>
        rw [handleFretClick_inactive st s f hr hm ha]
        exact h
      | true =>
        by_cases hcc : st.mode = GameMode.chord ∧ st.currentChord.isSome
        · obtain ⟨hmc, hsome⟩ := hcc
          obtain ⟨ch, hch⟩ := Option.isSome_iff_exists.mp hsome
          rw [handleFretClick_eq_chordClick st s f ch hr hmc ha hch,
            chordClick_unlocked]
          exact h
        · rw [handleFretClick_eq_nonChordClick st s f hr hm ha hcc]
          exact nonChordClick_unlocked _ _ _ h
  · rw [(handleFretClick_out_of_range st s f hr)]
    exact h

/-- A whole sequence of fret clicks, applied left to right (each click's new
state feeds the next; scheduled callbacks are not run). -/
def applyClicks (st : AppState) (clicks : List (Nat × Nat)) : AppState :=
  clicks.foldl (fun a p => (handleFretClick a p.1 p.2).1) st

theorem stringMaster_unlock_step (st : AppState) (s f : Nat) (t : String)
    (hm : st.mode = GameMode.stringMaster) (ha : st.gameActive = true)
    (hr : inRange st.fretRange f) (ht : st.targetNote = some t)
    (hn : clickNoteName s f = t) (h9 : st.currentStringScore = 9)
    (h6 : st.unlockedStrings < 6) :
    (handleFretClick st s f).1.unlockedStrings = st.unlockedStrings + 1
    ∧ (handleFretClick st s f).1.currentStringScore = 0 := by
  rw [handleFretClick_eq_nonChordClick st s f hr (by simp [hm]) ha (by simp [hm])]
  unfold nonChordClick
  dsimp only
  rw [ht]
  dsimp only
  rw [if_pos hn]
  unfold correctClick
  simp [hm, MASTERY_THRESHOLD, h9, h6]

/-- C4: in stringMaster mode, a correct scored answer that brings the
in-round counter to exactly 10 (`MASTERY_THRESHOLD`) while fewer than 6
strings are unlocked increments the unlocked-string count by exactly 1 and
resets the counter to 0; and from any state with at most 6 unlocked strings,
no sequence of clicks ever pushes the unlocked count above 6. -/
theorem stringMaster_unlock_progression :
    (∀ (st : AppState) (s f : Nat) (t : String),
        st.mode = GameMode.stringMaster → st.gameActive = true →
        inRange st.fretRange f → st.targetNote = some t →
        clickNoteName s f = t → st.currentStringScore = 9 →
        st.unlockedStrings < 6 →
        (handleFretClick st s f).1.unlockedStrings = st.unlockedStrings + 1
        ∧ (handleFretClick st s f).1.currentStringScore = 0)
    ∧ (∀ (st : AppState) (clicks : List (Nat × Nat)),
        st.unlockedStrings ≤ 6 →
        (applyClicks st clicks).unlockedStrings ≤ 6) := by
  constructor
  · intro st s f t hm ha hr ht hn h9 h6
    exact stringMaster_unlock_step st s f t hm ha hr ht hn h9 h6
  · intro st clicks
    induction clicks generalizing st with
    | nil => intro h; exact h
    | cons p l ih =>
      intro h
      exact ih _ (unlocked_le_six_step st p.1 p.2 h)

/-- A concrete stringMaster session one correct answer away from an unlock. -/
def stringMasterWitnessState : AppState :=
  { baseState with
    mode := GameMode.stringMaster, gameActive := true,
    targetNote := some "E", currentStringScore := 9, unlockedStrings := 2 }

theorem stringMaster_unlock_progression_witness :
    ((handleFretClick stringMasterWitnessState 0 0).1.unlockedStrings
        = stringMasterWitnessState.unlockedStrings + 1
      ∧ (handleFretClick stringMasterWitnessState 0 0).1.currentStringScore = 0)
    ∧ (applyClicks baseState [(0, 0), (1, 3)]).unlockedStrings ≤ 6 :=
  ⟨stringMaster_unlock_progression.1 stringMasterWitnessState 0 0 "E"
      rfl rfl (by decide) rfl (by decide) rfl (by decide),
   stringMaster_unlock_progression.2 baseState [(0, 0), (1, 3)] (by decide)⟩

theorem correctClick_noteStats (st : AppState) (t nn nid : String) :
    (correctClick st t nn nid).1.noteStats = st.noteStats := by
  unfold correctClick
  dsimp only
  repeat' split
  all_goals rfl

theorem chordClick_noteStats (st : AppState) (ch : Chord) (nn nid : String) :
    (chordClick st ch nn nid).1.noteStats = st.noteStats := by
  unfold chordClick
  dsimp only
  repeat' split
  all_goals rfl

theorem scored_correct_noteStats (st : AppState) (s f : Nat) (t : String)
    (hme : st.mode ≠ GameMode.explore) (hmc : st.mode ≠ GameMode.chord)
    (ha : st.gameActive = true) (hr : inRange st.fretRange f)
    (ht : st.targetNote = some t) (hn : clickNoteName s f = t) :
    (handleFretClick st s f).1.noteStats = updateNoteStats t true st.noteStats := by
  rw [handleFretClick_eq_nonChordClick st s f hr hme ha (by simp [hmc])]
  unfold nonChordClick
  dsimp only
  rw [ht]
  dsimp only
  rw [if_pos hn, correctClick_noteStats]

theorem scored_wrong_noteStats (st : AppState) (s f : Nat) (t : String)
    (hme : st.mode ≠ GameMode.explore) (hmc : st.mode ≠ GameMode.chord)
    (ha : st.gameActive = true) (hr : inRange st.fretRange f)
    (ht : st.targetNote = some t) (hn : clickNoteName s f ≠ t) :
    (handleFretClick st s f).1.noteStats = updateNoteStats t false st.noteStats := by
  rw [handleFretClick_eq_nonChordClick st s f hr hme ha (by simp [hmc])]
  unfold nonChordClick
  dsimp only
  rw [ht]
  dsimp only
  rw [if_neg hn]
  split
  all_goals rfl

/-- C3 counterexample: a scored chord-mode click (the score increments) that
leaves the per-pitch accuracy counters untouched — the clicked and completed
target pitch "G" still has zero recorded attempts afterwards, although the
claim requires its correct counter to increment. -/
theorem chord_mode_stats_not_updated_cex :
    (handleFretClick chordWitnessState 0 3).1.score
        = chordWitnessState.score + 1
    ∧ (handleFretClick chordWitnessState 0 3).1.noteStats
        = chordWitnessState.noteStats
    ∧ statsOf (handleFretClick chordWitnessState 0 3).1.noteStats "G"
        = ⟨0, 0⟩ := by
  decide

/-- C3 (amended): in the four single-target modes (survival, stringMaster,
weakNotes, vertical) every scored fret click updates the per-pitch accuracy
counters — the target pitch's correct counter increments by 1 on a correct
click, its wrong counter by 1 on an incorrect click — while in chord mode no
click ever changes the counters. -/
theorem noteStats_updated_single_target_only :
    (∀ (st : AppState) (s f : Nat) (t : String),
        (st.mode = GameMode.survival ∨ st.mode = GameMode.stringMaster
          ∨ st.mode = GameMode.weakNotes ∨ st.mode = GameMode.vertical) →
        st.gameActive = true → inRange st.fretRange f →
        st.targetNote = some t →
        (clickNoteName s f = t →
          statsOf (handleFretClick st s f).1.noteStats t
            = ⟨(statsOf st.noteStats t).correct + 1,
               (statsOf st.noteStats t).wrong⟩)
        ∧ (clickNoteName s f ≠ t →
          statsOf (handleFretClick st s f).1.noteStats t
            = ⟨(statsOf st.noteStats t).correct,
               (statsOf st.noteStats t).wrong + 1⟩))
    ∧ (∀ (st : AppState) (s f : Nat) (ch : Chord),
        st.mode = GameMode.chord → st.gameActive = true →
        inRange st.fretRange f → st.currentChord = some ch →
        (handleFretClick st s f).1.noteStats = st.noteStats) := by
  constructor
  · intro st s f t hm ha hr ht
    have hme : st.mode ≠ GameMode.explore := by
      rcases hm with h | h | h | h <;> simp [h]
    have hmc : st.mode ≠ GameMode.chord := by
      rcases hm with h | h | h | h <;> simp [h]
    constructor
    · intro hn
      rw [scored_correct_noteStats st s f t hme hmc ha hr ht hn,
        statsOf_updateNoteStats_self]
      simp
    · intro hn
      rw [scored_wrong_noteStats st s f t hme hmc ha hr ht hn,
        statsOf_updateNoteStats_self]
      simp
  · intro st s f ch hm ha hr hc
    rw [handleFretClick_eq_chordClick st s f ch hr hm ha hc,
      chordClick_noteStats]

theorem noteStats_updated_single_target_only_witness :
    (statsOf (handleFretClick survivalWitnessState 0 8).1.noteStats "C"
        = ⟨(statsOf survivalWitnessState.noteStats "C").correct + 1,
           (statsOf survivalWitnessState.noteStats "C").wrong⟩)
    ∧ (statsOf (handleFretClick survivalWitnessState 0 0).1.noteStats "C"
        = ⟨(statsOf survivalWitnessState.noteStats "C").correct,
           (statsOf survivalWitnessState.noteStats "C").wrong + 1⟩)
    ∧ (handleFretClick chordWitnessState 0 3).1.noteStats
        = chordWitnessState.noteStats :=
  ⟨(noteStats_updated_single_target_only.1 survivalWitnessState 0 8 "C"
      (Or.inl rfl) rfl (by decide) rfl).1 (by decide),
   (noteStats_updated_single_target_only.1 survivalWitnessState 0 0 "C"
      (Or.inl rfl) rfl (by decide) rfl).2 (by decide),
   noteStats_updated_single_target_only.2 chordWitnessState 0 3
      ⟨"C", "major", ["C", "E", "G"]⟩ rfl rfl (by decide) rfl⟩

theorem isWeak_iff (s : NoteStats) :
    isWeak s = true ↔
      5 ≤ s.correct + s.wrong ∧ 3 * (s.correct + s.wrong) < 10 * s.wrong := by
  unfold isWeak
  dsimp only
  split
  · simp
    omega
  · simp
    omega

theorem computeWeakNotes_mem (l : List (String × NoteStats)) (n : String) :
    n ∈ computeWeakNotes l ↔
      ∃ cs ws : Nat, ((n, NoteStats.mk cs ws) ∈ l
        ∧ 5 ≤ cs + ws ∧ 3 * (cs + ws) < 10 * ws) := by
  unfold computeWeakNotes
  constructor
  · intro h
    obtain ⟨p, hp, hpn⟩ := List.mem_map.mp h
    obtain ⟨hpl, hpw⟩ := List.mem_filter.mp hp
    obtain ⟨w1, w2⟩ := isWeak_iff p.2 |>.mp hpw
    refine ⟨p.2.correct, p.2.wrong, ?_, w1, w2⟩
    have hpe : (n, NoteStats.mk p.2.correct p.2.wrong) = p := by
      obtain ⟨p1, p2c, p2w⟩ := p
      simp only at hpn
      simp [hpn]
    rw [hpe]
    exact hpl
  · rintro ⟨cs, ws, hmem, h1, h2⟩
    refine List.mem_map.mpr
      ⟨(n, NoteStats.mk cs ws), List.mem_filter.mpr ⟨hmem, ?_⟩, rfl⟩
    exact isWeak_iff _ |>.mpr ⟨h1, h2⟩

theorem startWeakNotes_refused (st : AppState) (k : Nat)
    (h : computeWeakNotes st.noteStats = []) :
    (startWeakNotes k st).mode = GameMode.explore
    ∧ (startWeakNotes k st).gameActive = false
    ∧ (startWeakNotes k st).score = st.score
    ∧ (startWeakNotes k st).timeLeft = st.timeLeft
    ∧ (startWeakNotes k st).targetNote = st.targetNote := by
  unfold startWeakNotes
  rw [h]
  simp

theorem startWeakNotes_started (st : AppState) (k : Nat)
    (h : computeWeakNotes st.noteStats ≠ []) :
    (startWeakNotes k st).mode = GameMode.weakNotes
    ∧ (startWeakNotes k st).gameActive = true
    ∧ (startWeakNotes k st).score = 0
    ∧ ∃ w ∈ computeWeakNotes st.noteStats,
        (startWeakNotes k st).targetNote = some w := by
  unfold startWeakNotes
  rw [if_neg (by simpa [List.isEmpty_iff] using h)]
  unfold pickNewTarget
  dsimp only
  refine ⟨?_, ?_, ?_, ?_⟩
  · split <;> rfl
  · split <;> rfl
  · split <;> rfl
  · have hlen : 0 < (computeWeakNotes st.noteStats).length :=
      List.length_pos.mpr h
    have hidx : k % (computeWeakNotes st.noteStats).length
        < (computeWeakNotes st.noteStats).length := Nat.mod_lt _ hlen
    refine ⟨(computeWeakNotes st.noteStats).getD
      (k % (computeWeakNotes st.noteStats).length) "undefined", ?_, ?_⟩
    · rw [List.getD_eq_getElem _ _ hidx]
      exact List.getElem_mem _
    · split <;> rfl

/-- C6: the remediation pool contains a pitch iff that pitch has a recorded
entry with at least 5 attempts and wrong/attempts strictly above 0.3
(`3 * attempts < 10 * wrong` in exact arithmetic); with an empty pool the
start is refused — the mode falls back to explore and the game is inactive —
and with a nonempty pool the mode starts with a target drawn from the pool. -/
theorem weakNotes_pool_and_refusal :
    (∀ (l : List (String × NoteStats)) (n : String),
        n ∈ computeWeakNotes l ↔
          ∃ cs ws : Nat, ((n, NoteStats.mk cs ws) ∈ l
            ∧ 5 ≤ cs + ws ∧ 3 * (cs + ws) < 10 * ws))
    ∧ (∀ (st : AppState) (k : Nat),
        computeWeakNotes st.noteStats = [] →
        (startWeakNotes k st).mode = GameMode.explore
        ∧ (startWeakNotes k st).gameActive = false)
    ∧ (∀ (st : AppState) (k : Nat),
        computeWeakNotes st.noteStats ≠ [] →
        (startWeakNotes k st).mode = GameMode.weakNotes
        ∧ (startWeakNotes k st).gameActive = true
        ∧ ∃ w ∈ computeWeakNotes st.noteStats,
            (startWeakNotes k st).targetNote = some w) := by
  refine ⟨computeWeakNotes_mem, ?_, ?_⟩
  · intro st k h
    exact ⟨(startWeakNotes_refused st k h).1, (startWeakNotes_refused st k h).2.1⟩
  · intro st k h
    exact ⟨(startWeakNotes_started st k h).1, (startWeakNotes_started st k h).2.1,
      (startWeakNotes_started st k h).2.2.2⟩

/-- A concrete state whose recorded statistics make exactly "E" weak. -/
def weakWitnessState : AppState :=
  { baseState with noteStats := [("E", ⟨2, 3⟩)] }

theorem weakNotes_pool_and_refusal_witness :
    ("E" ∈ computeWeakNotes [("E", NoteStats.mk 2 3)]
      ↔ ∃ cs ws : Nat, (("E", NoteStats.mk cs ws) ∈ [("E", NoteStats.mk 2 3)]
            ∧ 5 ≤ cs + ws ∧ 3 * (cs + ws) < 10 * ws))
    ∧ (startWeakNotes 0 baseState).mode = GameMode.explore
    ∧ (startWeakNotes 0 weakWitnessState).mode = GameMode.weakNotes :=
  ⟨weakNotes_pool_and_refusal.1 [("E", NoteStats.mk 2 3)] "E",
   (weakNotes_pool_and_refusal.2.1 baseState 0 (by decide)).1,
   (weakNotes_pool_and_refusal.2.2 weakWitnessState 0 (by decide)).1⟩

theorem pickNewTarget_facts (m : GameMode) (pool : List String) (k : Nat)
    (st : AppState) (h : pool ≠ []) :
    (pickNewTarget m pool k st).mode = st.mode
    ∧ (pickNewTarget m pool k st).score = st.score
    ∧ (pickNewTarget m pool k st).timeLeft = st.timeLeft
    ∧ (pickNewTarget m pool k st).gameActive = st.gameActive
    ∧ (pickNewTarget m pool k st).currentStringScore = st.currentStringScore
    ∧ (pickNewTarget m pool k st).foundNotes
        = (if m = GameMode.vertical then ∅ else st.foundNotes)
    ∧ ∃ w ∈ pool, (pickNewTarget m pool k st).targetNote = some w := by
  unfold pickNewTarget
  dsimp only
  refine ⟨?_, ?_, ?_, ?_, ?_, ?_, ?_⟩
  · split <;> rfl
  · split <;> rfl
  · split <;> rfl
  · split <;> rfl
  · split <;> rfl
  · split <;> simp_all
  · have hlen : 0 < pool.length := List.length_pos.mpr h
    have hidx : k % pool.length < pool.length := Nat.mod_lt _ hlen
    refine ⟨pool.getD (k % pool.length) "undefined", ?_, ?_⟩
    · rw [List.getD_eq_getElem _ _ hidx]
      exact List.getElem_mem _
    · split <;> rfl

theorem startSurvival_facts (st : AppState) (k : Nat) :
    (startSurvival k st).mode = GameMode.survival
    ∧ (startSurvival k st).score = 0
    ∧ (startSurvival k st).timeLeft = 30
    ∧ (startSurvival k st).gameActive = true
    ∧ ∃ w ∈ NOTES, (startSurvival k st).targetNote = some w := by
  unfold startSurvival
  have h := pickNewTarget_facts st.mode NOTES k
    { st with mode := GameMode.survival, activeStrings := none,
              score := 0, timeLeft := 30, gameActive := true } (by decide)
  exact ⟨h.1, h.2.1, h.2.2.1, h.2.2.2.1, h.2.2.2.2.2.2⟩

theorem startVertical_facts (st : AppState) (k : Nat) :
    (startVertical k st).mode = GameMode.vertical
    ∧ (startVertical k st).score = 0
    ∧ (startVertical k st).timeLeft = 60
    ∧ (startVertical k st).gameActive = true
    ∧ (startVertical k st).foundNotes = ∅
    ∧ ∃ w ∈ NOTES, (startVertical k st).targetNote = some w := by
  unfold startVertical
  have h := pickNewTarget_facts st.mode NOTES k
    { st with mode := GameMode.vertical, activeStrings := none,
              score := 0, timeLeft := 60, gameActive := true,
              foundNotes := ∅ } (by decide)
  refine ⟨h.1, h.2.1, h.2.2.1, h.2.2.2.1, ?_, h.2.2.2.2.2.2⟩
  rw [h.2.2.2.2.2.1]
  split <;> rfl

theorem startStringMaster_facts (st : AppState) (k : Nat) :
    (startStringMaster k st).mode = GameMode.stringMaster
    ∧ (startStringMaster k st).score = 0
    ∧ (startStringMaster k st).currentStringScore = 0
    ∧ (startStringMaster k st).timeLeft = st.timeLeft
    ∧ (startStringMaster k st).gameActive = true
    ∧ ∃ w ∈ NOTES, (startStringMaster k st).targetNote = some w := by
  unfold startStringMaster
  dsimp only
  have h := pickNewTarget_facts st.mode NOTES k
    { st with mode := GameMode.stringMaster,
              activeStrings := some (Finset.range st.unlockedStrings),
              score := 0, currentStringScore := 0, gameActive := true }
    (by decide)
  obtain ⟨w, hw, hwt⟩ := h.2.2.2.2.2.2
  exact ⟨h.1, h.2.1, h.2.2.2.2.1, h.2.2.1, h.2.2.2.1, w, hw, hwt⟩

theorem startChord_facts (st : AppState) (kr kt : Nat) :
    (startChord kr kt st).mode = GameMode.chord
    ∧ (startChord kr kt st).score = 0
    ∧ (startChord kr kt st).timeLeft = 90
    ∧ (startChord kr kt st).gameActive = true
    ∧ (startChord kr kt st).foundNotes = ∅
    ∧ (startChord kr kt st).foundChordNotes = ∅
    ∧ ∃ ch : Chord, (startChord kr kt st).currentChord = some ch
        ∧ ch.root ∈ CHORD_ROOTS ∧ ch.ctype ∈ CHORD_TYPES
        ∧ ch.notes = chordNotesFor ch.root ch.ctype := by
  unfold startChord pickNewChord
  dsimp only
  refine ⟨rfl, rfl, rfl, rfl, rfl, rfl, _, rfl, ?_, ?_, rfl⟩
  · have hidx : kr % CHORD_ROOTS.length < CHORD_ROOTS.length :=
      Nat.mod_lt _ (by decide)
    rw [List.getD_eq_getElem _ _ hidx]
    exact List.getElem_mem _
  · have hidx : kt % CHORD_TYPES.length < CHORD_TYPES.length :=
      Nat.mod_lt _ (by decide)
    rw [List.getD_eq_getElem _ _ hidx]
    exact List.getElem_mem _

theorem startWeakNotes_timeLeft (st : AppState) (k : Nat)
    (h : computeWeakNotes st.noteStats ≠ []) :
    (startWeakNotes k st).timeLeft = st.timeLeft := by
  unfold startWeakNotes
  rw [if_neg (by simpa [List.isEmpty_iff] using h)]
  dsimp only
  have hp := pickNewTarget_facts st.mode (computeWeakNotes st.noteStats) k
    { st with mode := GameMode.weakNotes, activeStrings := none,
              score := 0, gameActive := true } h
  exact hp.2.2.1

theorem enterExplore_facts (st : AppState) :
    (enterExplore st).mode = GameMode.explore
    ∧ (enterExplore st).gameActive = false
    ∧ (enterExplore st).score = st.score
    ∧ (enterExplore st).timeLeft = st.timeLeft
    ∧ (enterExplore st).foundNotes = st.foundNotes
    ∧ (enterExplore st).foundChordNotes = st.foundChordNotes
    ∧ (enterExplore st).targetNote = st.targetNote :=
  ⟨rfl, rfl, rfl, rfl, rfl, rfl, rfl⟩

/-- A concrete mid-session survival state with nonzero score, timer, and a
nonempty found-set. -/
def richState : AppState :=
  { baseState with
    mode := GameMode.survival, score := 5, timeLeft := 17,
    foundNotes := {"0-3"}, targetNote := some "C" }

/-- C8 counterexample: the explore-button mode switch does not reset the
score to 0 (nor the timer, the found-set, or the target), contradicting the
claim that every mode switch does. -/
theorem enterExplore_no_reset_cex :
    (enterExplore richState).mode = GameMode.explore
    ∧ (enterExplore richState).score = 5
    ∧ (enterExplore richState).timeLeft = 17
    ∧ (enterExplore richState).foundNotes = {"0-3"}
    ∧ (enterExplore richState).targetNote = some "C" := by
  decide

/-- C8 (amended): starting survival, vertical, stringMaster, chord, or
weakNotes (with a nonempty pool) resets the score to 0 and picks a new
target (or chord) from that mode's pool; survival, vertical, and chord also
reset the timer (30, 60, 90); vertical and chord clear the found-set(s);
stringMaster and weakNotes leave the timer unchanged; switching to explore
only deactivates the game, leaving score, timer, found-set, and target
unchanged. -/
theorem mode_switch_reset_policy :
    (∀ (st : AppState) (k : Nat),
        (startSurvival k st).score = 0 ∧ (startSurvival k st).timeLeft = 30
        ∧ (startSurvival k st).gameActive = true
        ∧ ∃ w ∈ NOTES, (startSurvival k st).targetNote = some w)
    ∧ (∀ (st : AppState) (k : Nat),
        (startVertical k st).score = 0 ∧ (startVertical k st).timeLeft = 60
        ∧ (startVertical k st).gameActive = true
        ∧ (startVertical k st).foundNotes = ∅
        ∧ ∃ w ∈ NOTES, (startVertical k st).targetNote = some w)
    ∧ (∀ (st : AppState) (k : Nat),
        (startStringMaster k st).score = 0
        ∧ (startStringMaster k st).currentStringScore = 0
        ∧ (startStringMaster k st).timeLeft = st.timeLeft
        ∧ (startStringMaster k st).gameActive = true
        ∧ ∃ w ∈ NOTES, (startStringMaster k st).targetNote = some w)
    ∧ (∀ (st : AppState) (kr kt : Nat),
        (startChord kr kt st).score = 0 ∧ (startChord kr kt st).timeLeft = 90
        ∧ (startChord kr kt st).gameActive = true
        ∧ (startChord kr kt st).foundNotes = ∅
        ∧ (startChord kr kt st).foundChordNotes = ∅
        ∧ ∃ ch : Chord, (startChord kr kt st).currentChord = some ch
            ∧ ch.root ∈ CHORD_ROOTS ∧ ch.ctype ∈ CHORD_TYPES
            ∧ ch.notes = chordNotesFor ch.root ch.ctype)
    ∧ (∀ (st : AppState) (k : Nat),
        computeWeakNotes st.noteStats ≠ [] →
        (startWeakNotes k st).score = 0
        ∧ (startWeakNotes k st).timeLeft = st.timeLeft
        ∧ (startWeakNotes k st).gameActive = true
        ∧ ∃ w ∈ computeWeakNotes st.noteStats,
            (startWeakNotes k st).targetNote = some w)
    ∧ (∀ st : AppState,
        (enterExplore st).mode = GameMode.explore
        ∧ (enterExplore st).gameActive = false
        ∧ (enterExplore st).score = st.score
        ∧ (enterExplore st).timeLeft = st.timeLeft
        ∧ (enterExplore st).foundNotes = st.foundNotes
        ∧ (enterExplore st).targetNote = st.targetNote) := by
  refine ⟨?_, ?_, ?_, ?_, ?_, ?_⟩
  · intro st k
    have h := startSurvival_facts st k
    exact ⟨h.2.1, h.2.2.1, h.2.2.2.1, h.2.2.2.2⟩
  · intro st k
    have h := startVertical_facts st k
    exact ⟨h.2.1, h.2.2.1, h.2.2.2.1, h.2.2.2.2.1, h.2.2.2.2.2⟩
  · intro st k
    have h := startStringMaster_facts st k
    exact ⟨h.2.1, h.2.2.1, h.2.2.2.1, h.2.2.2.2.1, h.2.2.2.2.2⟩
  · intro st kr kt
    have h := startChord_facts st kr kt
    exact ⟨h.2.1, h.2.2.1, h.2.2.2.1, h.2.2.2.2.1, h.2.2.2.2.2.1,
      h.2.2.2.2.2.2⟩
  · intro st k h
    have h1 := startWeakNotes_started st k h
    exact ⟨h1.2.2.1, startWeakNotes_timeLeft st k h, h1.2.1, h1.2.2.2⟩
  · intro st
    have h := enterExplore_facts st
    exact ⟨h.1, h.2.1, h.2.2.1, h.2.2.2.1, h.2.2.2.2.1, h.2.2.2.2.2.2⟩

theorem mode_switch_reset_policy_witness :
    (startSurvival 0 baseState).score = 0
    ∧ (startWeakNotes 0 weakWitnessState).score = 0
    ∧ (startWeakNotes 0 weakWitnessState).timeLeft
        = weakWitnessState.timeLeft :=
  ⟨(mode_switch_reset_policy.1 baseState 0).1,
   (mode_switch_reset_policy.2.2.2.2.1 weakWitnessState 0 (by decide)).1,
   (mode_switch_reset_policy.2.2.2.2.1 weakWitnessState 0 (by decide)).2.1⟩

end FretboardTrainer
